import Mathlib

/-!
Shallow embedding of `src/logic/safe/transactions/txMonitor.ts` from the
`safe-react` repository, together with proofs of the monitor's specified
properties.

The monitor is a self-rescheduling polling loop (`txMonitor`): each
`setTimeout` round either (a) discovers the nonce/gasPrice of the tracked
transaction by hash lookup, or (b) polls: fires a best-effort receipt lookup
on the tracked hash (logged only), scans the latest block for a replacement
candidate (same sender, same nonce, different hash, same calldata, strictly
greater fee), and on a candidate either adopts it (receipt still null) or
invokes the callback with its receipt and stops.

We model one `setTimeout` body as a pure step function `txMonitorStep` from a
`ChainReader` (the chain state observed during that round) and the monitor's
props to an outcome (reschedule with new props, or callback with a receipt),
paired with a `RoundTrace` recording which chain-reader observations the round
performed (the `console.info` telemetry).  A whole monitoring session over a
sequence of per-round chain states is `txMonitorRun` / `txMonitorStates`.
-/

namespace SafeReact

/-- The character sequence of a string, lowercased (the `.toLowerCase()`
normalization used by the comparison helpers). -/
def lowerChars (s : String) : List Char := s.data.map Char.toLower

/-- Modelled from the spec: the address comparison helper `sameAddress`
(imported from `src/logic/wallets/ethAddresses`, not part of the sources
given); the spec says sender addresses are in "normalized form comparable
case-insensitively". -/
def sameAddress (a b : String) : Bool := lowerChars a == lowerChars b

/-- Modelled from the spec: the string comparison helper `sameString`
(imported from `src/utils/strings`, not part of the sources given);
case-insensitive string equality. -/
def sameString (a b : String) : Bool := lowerChars a == lowerChars b

/-- Modelled from the spec: `web3ReadOnly.utils.toBN` on a decimal fee
string — the spec's Chain Reader capability "numeric comparison of fee
values", required to be arbitrary-precision integer ("implementers must use a
big-integer type, not floating point").  Parses a decimal digit string into an
unbounded natural number. -/
def toBN (s : String) : Nat := s.data.foldl (fun acc c => acc * 10 + (c.toNat - 48)) 0

/-- A full transaction record as found in a block or returned by
`eth.getTransaction` (the fields of web3's `Transaction` that `txMonitor`
reads). -/
structure Tx where
  hash : String
  «from» : String
  nonce : Nat
  input : String
  gasPrice : String
deriving DecidableEq, Repr

/-- A mined transaction receipt (`web3-core`'s `TransactionReceipt`; opaque to
the monitor — per the spec it carries at least the mined transaction's hash,
block number and status). -/
structure TransactionReceipt where
  transactionHash : String
  blockNumber : Nat
  status : Bool
deriving DecidableEq, Repr

/-- The Chain Reader capability as one round of the monitor observes it:
`web3ReadOnly.eth.getTransaction`, `web3ReadOnly.eth.getTransactionReceipt`,
and the transaction list of `web3ReadOnly.eth.getBlock('latest', true)`. -/
structure ChainReader where
  getTransaction : String → Option Tx
  getTransactionReceipt : String → Option TransactionReceipt
  latestBlockTransactions : List Tx

/-- The `TxMonitorProps` argument of `txMonitor`: `nonce` and `gasPrice` are
optional (`nonce?: number`, `gasPrice?: string`). -/
structure TxMonitorProps where
  sender : String
  hash : String
  data : String
  nonce : Option Nat
  gasPrice : Option String
deriving DecidableEq, Repr

/-- The replacement-candidate scan of `txMonitor` (txMonitor.ts lines 59-70):
`latestBlock.transactions.find(...)` with the five-conjunct predicate
`sameAddress(transaction.from, sender) && transaction.nonce === nonce &&
!sameString(transaction.hash, hash) && sameString(transaction.input, data) &&
toBN(transaction.gasPrice).gt(toBN(gasPrice))`. -/
def replacementTransaction (latestBlockTransactions : List Tx)
    (sender : String) (nonce : Nat) (hash data gasPrice : String) : Option Tx :=
  latestBlockTransactions.find? fun transaction =>
    sameAddress transaction.«from» sender &&
    transaction.nonce == nonce &&
    !sameString transaction.hash hash &&
    sameString transaction.input data &&
    decide (toBN gasPrice < toBN transaction.gasPrice)

/-- Outcome of one `setTimeout` round: either reschedule (`txMonitor(...)`
recursive call with new props) or invoke `cb` with a receipt and return. -/
inductive StepOutcome where
  | next (props : TxMonitorProps)
  | mined (receipt : TransactionReceipt)
deriving DecidableEq, Repr

/-- The `console.info` telemetry of one round: which chain observations the
round performed, and with what result.  `none` in a field means the round
never performed that observation. -/
structure RoundTrace where
  receiptCheck : Option (Option TransactionReceipt)
  blockScan : Option (List Tx)
  candidateSearch : Option (Option Tx)
deriving DecidableEq, Repr

/-- One `setTimeout` body of `txMonitor` (txMonitor.ts lines 37-94).
If `nonce` or `gasPrice` is undefined: look the transaction up by hash; if
found, reschedule with its nonce and gasPrice, else reschedule with both
unset.  Otherwise: fire the best-effort receipt lookup on the tracked hash
(result only logged), fetch the latest block, scan it for a replacement
candidate; on a candidate, fetch its receipt — if null, adopt the candidate
(new hash/data/gasPrice, same sender/nonce) and reschedule, else call `cb`
with the receipt and stop; with no candidate, reschedule unchanged. -/
def txMonitorStep (chain : ChainReader) (p : TxMonitorProps) :
    StepOutcome × RoundTrace :=
  match p.nonce, p.gasPrice with
  | some nonce, some gasPrice =>
    let receiptLog := chain.getTransactionReceipt p.hash
    let latestBlockTxs := chain.latestBlockTransactions
    let replacement :=
      replacementTransaction latestBlockTxs p.sender nonce p.hash p.data gasPrice
    let trace : RoundTrace := ⟨some receiptLog, some latestBlockTxs, some replacement⟩
    match replacement with
    | some t =>
      match chain.getTransactionReceipt t.hash with
      | none =>
        (.next { sender := p.sender, hash := t.hash, data := t.input,
                 nonce := some nonce, gasPrice := some t.gasPrice }, trace)
      | some transactionReceipt => (.mined transactionReceipt, trace)
    | none => (.next p, trace)
  | _, _ =>
    match chain.getTransaction p.hash with
    | some transaction =>
      (.next { sender := p.sender, hash := p.hash, data := p.data,
               nonce := some transaction.nonce, gasPrice := some transaction.gasPrice },
       ⟨none, none, none⟩)
    | none =>
      (.next { sender := p.sender, hash := p.hash, data := p.data,
               nonce := none, gasPrice := none },
       ⟨none, none, none⟩)

/-- A monitoring session over a finite sequence of per-round chain states:
returns the list of receipts passed to `cb` (in order).  The session stops
after a `mined` outcome (`cb(transactionReceipt); return`). -/
def txMonitorRun : List ChainReader → TxMonitorProps → List TransactionReceipt
  | [], _ => []
  | chain :: rest, p =>
    match (txMonitorStep chain p).1 with
    | .next p2 => txMonitorRun rest p2
    | .mined r => [r]

/-- The successive props states of a monitoring session (including the initial
state; the trace ends at the state in which `cb` fired or the rounds ran
out). -/
def txMonitorStates : List ChainReader → TxMonitorProps → List TxMonitorProps
  | [], p => [p]
  | chain :: rest, p =>
    match (txMonitorStep chain p).1 with
    | .next p2 => p :: txMonitorStates rest p2
    | .mined _ => [p]

/-! ### Concrete fixtures used by the witness theorems -/

/-- A speed-up candidate: same sender/nonce/calldata as `demoProps`, different
hash, fee 20 > 10. -/
def demoTx2 : Tx := ⟨"0xh2", "0xaaa", 5, "0xdata", "20"⟩

/-- Receipt of `demoTx2`. -/
def demoReceipt2 : TransactionReceipt := ⟨"0xh2", 7, true⟩

/-- The original tracked transaction (hash `0xh1`, nonce 5, fee 10). -/
def demoOrigTx : Tx := ⟨"0xh1", "0xaaa", 5, "0xdata", "10"⟩

/-- A same-sender/nonce/calldata transaction whose fee does not exceed the
tracked fee. -/
def demoLowTx : Tx := ⟨"0xh3", "0xaaa", 5, "0xdata", "10"⟩

/-- Polling-state props: nonce and gasPrice known. -/
def demoProps : TxMonitorProps := ⟨"0xaaa", "0xh1", "0xdata", some 5, some "10"⟩

/-- The props `demoProps` after adopting `demoTx2`. -/
def demoAdopted : TxMonitorProps := ⟨"0xaaa", "0xh2", "0xdata", some 5, some "20"⟩

/-- Discovery-state props: nonce and gasPrice unknown. -/
def demoDiscProps : TxMonitorProps := ⟨"0xaaa", "0xh1", "0xdata", none, none⟩

/-- Props with a caller-supplied nonce but no gasPrice. -/
def demoHalfProps : TxMonitorProps := ⟨"0xaaa", "0xh1", "0xdata", some 99, none⟩

/-- Chain state: candidate `demoTx2` in the latest block, no receipts. -/
def demoChainPending : ChainReader := ⟨fun _ => none, fun _ => none, [demoTx2]⟩

/-- Chain state: candidate `demoTx2` in the latest block, with its receipt
available. -/
def demoChainMined : ChainReader :=
  ⟨fun _ => none, fun h => if h = "0xh2" then some demoReceipt2 else none, [demoTx2]⟩

/-- Chain state: the original transaction is indexed (lookup by hash
succeeds), latest block empty. -/
def demoChainFound : ChainReader :=
  ⟨fun h => if h = "0xh1" then some demoOrigTx else none, fun _ => none, []⟩

/-- Chain state: nothing indexed, latest block empty. -/
def demoChainQuiet : ChainReader := ⟨fun _ => none, fun _ => none, []⟩

/-- Same nonce as the tracked intent but a different sender. -/
def demoWrongSenderTx : Tx := ⟨"0xh4", "0xbbb", 5, "0xdata", "30"⟩

/-- Same sender and nonce as the tracked intent but different calldata. -/
def demoWrongDataTx : Tx := ⟨"0xh5", "0xaaa", 5, "0xother", "30"⟩

/-- Variant of `demoChainFound` with a different receipt table and latest block (same
transaction lookup). -/
def demoChainAlt : ChainReader :=
  ⟨demoChainFound.getTransaction, fun _ => some demoReceipt2, [demoTx2]⟩

/-- The decimal-digit string with the given big-endian digits: the canonical
decimal rendering of a large fee integer. -/
def decString (l : List Nat) : String := ⟨l.map Nat.digitChar⟩

/-- Receipt of the tracked transaction in the termination-correctness
scenario. -/
def c5Receipt : TransactionReceipt := ⟨"0xh1", 100, true⟩

/-- The tracked transaction of the termination-correctness scenario, mined. -/
def c5Tx : Tx := ⟨"0xh1", "0xaaa", 5, "0xdata", "10"⟩

/-- Chain state for the termination-correctness scenario: the tracked hash's
receipt is available (from round 1 on, so K = 1), and the latest block holds
only the tracked transaction itself — no replacement candidate ever
appears. -/
def c5Chain : ChainReader := ⟨fun _ => some c5Tx, fun _ => some c5Receipt, [c5Tx]⟩

/-- Props of the termination-correctness scenario, nonce and fee known. -/
def c5Props : TxMonitorProps := ⟨"0xaaa", "0xh1", "0xdata", some 5, some "10"⟩

/-! ### Helper lemmas -/

lemma sameString_refl (a : String) : sameString a a = true := by
  simp [sameString]

lemma ne_of_sameString_false {a b : String} (h : sameString a b = false) : a ≠ b := by
  intro hab
  rw [hab, sameString_refl] at h
  cases h

/-- The candidate predicate of `replacementTransaction`, as a Bool equation,
unfolded to its five conjuncts. -/
lemma candidateBool_iff (sender : String) (nonce : Nat) (hash data gasPrice : String)
    (t : Tx) :
    (sameAddress t.«from» sender && t.nonce == nonce && !sameString t.hash hash &&
      sameString t.input data && decide (toBN gasPrice < toBN t.gasPrice)) = true
    ↔ sameAddress t.«from» sender = true ∧ t.nonce = nonce ∧
      sameString t.hash hash = false ∧ sameString t.input data = true ∧
      toBN gasPrice < toBN t.gasPrice := by
  simp [Bool.and_eq_true, Bool.not_eq_true', and_assoc]

/-- Soundness of the block scan: a found candidate is in the block and
satisfies all five conjuncts. -/
lemma replacement_sound {latest : List Tx} {sender : String} {nonce : Nat}
    {hash data gasPrice : String} {t : Tx}
    (h : replacementTransaction latest sender nonce hash data gasPrice = some t) :
    t ∈ latest ∧ sameAddress t.«from» sender = true ∧ t.nonce = nonce ∧
      sameString t.hash hash = false ∧ sameString t.input data = true ∧
      toBN gasPrice < toBN t.gasPrice := by
  have hmem := List.mem_of_find?_eq_some h
  have hp := List.find?_some h
  simp only [candidateBool_iff] at hp
  exact ⟨hmem, hp⟩

/-- Completeness of the block scan: if some transaction of the block satisfies
all five conjuncts, a candidate is found. -/
lemma replacement_complete {latest : List Tx} {sender : String} {nonce : Nat}
    {hash data gasPrice : String} {t : Tx} (hmem : t ∈ latest)
    (h1 : sameAddress t.«from» sender = true) (h2 : t.nonce = nonce)
    (h3 : sameString t.hash hash = false) (h4 : sameString t.input data = true)
    (h5 : toBN gasPrice < toBN t.gasPrice) :
    (replacementTransaction latest sender nonce hash data gasPrice).isSome := by
  rw [replacementTransaction, List.find?_isSome]
  refine ⟨t, hmem, ?_⟩
  simp only [candidateBool_iff]
  exact ⟨h1, h2, h3, h4, h5⟩

/-- Polling round, no candidate found: reschedule with props unchanged. -/
lemma step_polling_no_candidate {chain : ChainReader} {p : TxMonitorProps} {n : Nat}
    {g : String} (hn : p.nonce = some n) (hg : p.gasPrice = some g)
    (hr : replacementTransaction chain.latestBlockTransactions p.sender n p.hash p.data g
      = none) :
    txMonitorStep chain p =
      (.next p, ⟨some (chain.getTransactionReceipt p.hash),
        some chain.latestBlockTransactions, some none⟩) := by
  obtain ⟨s, h, d, n?, g?⟩ := p
  simp only at hn hg hr
  subst hn hg
  simp [txMonitorStep, hr]

/-- Polling round, candidate found, its receipt still null: adopt the
candidate and reschedule. -/
lemma step_polling_adopt {chain : ChainReader} {p : TxMonitorProps} {n : Nat}
    {g : String} {t : Tx} (hn : p.nonce = some n) (hg : p.gasPrice = some g)
    (hr : replacementTransaction chain.latestBlockTransactions p.sender n p.hash p.data g
      = some t)
    (hrc : chain.getTransactionReceipt t.hash = none) :
    txMonitorStep chain p =
      (.next ⟨p.sender, t.hash, t.input, some n, some t.gasPrice⟩,
       ⟨some (chain.getTransactionReceipt p.hash),
        some chain.latestBlockTransactions, some (some t)⟩) := by
  obtain ⟨s, h, d, n?, g?⟩ := p
  simp only at hn hg hr ⊢
  subst hn hg
  simp [txMonitorStep, hr, hrc]

/-- Polling round, candidate found and mined: invoke the callback with its
receipt. -/
lemma step_polling_mined {chain : ChainReader} {p : TxMonitorProps} {n : Nat}
    {g : String} {t : Tx} {r : TransactionReceipt}
    (hn : p.nonce = some n) (hg : p.gasPrice = some g)
    (hr : replacementTransaction chain.latestBlockTransactions p.sender n p.hash p.data g
      = some t)
    (hrc : chain.getTransactionReceipt t.hash = some r) :
    txMonitorStep chain p =
      (.mined r, ⟨some (chain.getTransactionReceipt p.hash),
        some chain.latestBlockTransactions, some (some t)⟩) := by
  obtain ⟨s, h, d, n?, g?⟩ := p
  simp only at hn hg hr
  subst hn hg
  simp [txMonitorStep, hr, hrc]

/-- Discovery round, transaction found: reschedule with its nonce and
gasPrice. -/
lemma step_discovery_found {chain : ChainReader} {p : TxMonitorProps} {tr : Tx}
    (hd : p.nonce = none ∨ p.gasPrice = none)
    (ht : chain.getTransaction p.hash = some tr) :
    txMonitorStep chain p =
      (.next ⟨p.sender, p.hash, p.data, some tr.nonce, some tr.gasPrice⟩,
       ⟨none, none, none⟩) := by
  obtain ⟨s, h, d, n?, g?⟩ := p
  simp only at hd ht ⊢
  rcases hd with hd | hd <;> subst hd
  · cases g? <;> simp [txMonitorStep, ht]
  · cases n? <;> simp [txMonitorStep, ht]

/-- Discovery round, transaction not found: reschedule with nonce and gasPrice
both unset. -/
lemma step_discovery_notfound {chain : ChainReader} {p : TxMonitorProps}
    (hd : p.nonce = none ∨ p.gasPrice = none)
    (ht : chain.getTransaction p.hash = none) :
    txMonitorStep chain p =
      (.next ⟨p.sender, p.hash, p.data, none, none⟩, ⟨none, none, none⟩) := by
  obtain ⟨s, h, d, n?, g?⟩ := p
  simp only at hd ht ⊢
  rcases hd with hd | hd <;> subst hd
  · cases g? <;> simp [txMonitorStep, ht]
  · cases n? <;> simp [txMonitorStep, ht]

/-- Any outcome of a polling round that reschedules either keeps the props
unchanged or adopts a found candidate whose receipt was null. -/
lemma step_polling_next_cases {chain : ChainReader} {p p2 : TxMonitorProps} {n : Nat}
    {g : String} (hn : p.nonce = some n) (hg : p.gasPrice = some g)
    (h2 : (txMonitorStep chain p).1 = .next p2) :
    p2 = p ∨ ∃ t,
      replacementTransaction chain.latestBlockTransactions p.sender n p.hash p.data g
        = some t ∧
      chain.getTransactionReceipt t.hash = none ∧
      p2 = ⟨p.sender, t.hash, t.input, some n, some t.gasPrice⟩ := by
  cases hr : replacementTransaction chain.latestBlockTransactions p.sender n p.hash p.data g with
  | none =>
    rw [step_polling_no_candidate hn hg hr] at h2
    left
    exact (StepOutcome.next.injEq ..).mp h2.symm
  | some t =>
    cases hrc : chain.getTransactionReceipt t.hash with
    | none =>
      rw [step_polling_adopt hn hg hr hrc] at h2
      right
      exact ⟨t, rfl, hrc, ((StepOutcome.next.injEq ..).mp h2).symm⟩
    | some r =>
      rw [step_polling_mined hn hg hr hrc] at h2
      cases h2

/-- A `mined` outcome can only arise in a polling round, from a found
candidate whose receipt lookup returned that receipt. -/
lemma step_mined_cases {chain : ChainReader} {p : TxMonitorProps}
    {r : TransactionReceipt} (h : (txMonitorStep chain p).1 = .mined r) :
    ∃ n g t, p.nonce = some n ∧ p.gasPrice = some g ∧
      replacementTransaction chain.latestBlockTransactions p.sender n p.hash p.data g
        = some t ∧
      chain.getTransactionReceipt t.hash = some r := by
  cases hn : p.nonce with
  | none =>
    cases ht : chain.getTransaction p.hash with
    | none => rw [step_discovery_notfound (Or.inl hn) ht] at h; cases h
    | some tr => rw [step_discovery_found (Or.inl hn) ht] at h; cases h
  | some n =>
    cases hg : p.gasPrice with
    | none =>
      cases ht : chain.getTransaction p.hash with
      | none => rw [step_discovery_notfound (Or.inr hg) ht] at h; cases h
      | some tr => rw [step_discovery_found (Or.inr hg) ht] at h; cases h
    | some g =>
      cases hr : replacementTransaction chain.latestBlockTransactions p.sender n p.hash p.data g with
      | none => rw [step_polling_no_candidate hn hg hr] at h; cases h
      | some t =>
        cases hrc : chain.getTransactionReceipt t.hash with
        | none => rw [step_polling_adopt hn hg hr hrc] at h; cases h
        | some r2 =>
          rw [step_polling_mined hn hg hr hrc] at h
          cases h
          exact ⟨n, g, t, rfl, rfl, hr, hrc⟩

lemma digitChar_toNat_sub {d : Nat} (h : d < 10) : (Nat.digitChar d).toNat - 48 = d := by
  interval_cases d <;> rfl

lemma toBN_decString_aux (l : List Nat) (acc : Nat) (h : ∀ d ∈ l, d < 10) :
    (l.map Nat.digitChar).foldl (fun a c => a * 10 + (c.toNat - 48)) acc
      = Nat.ofDigits 10 l.reverse + acc * 10 ^ l.length := by
  induction l generalizing acc with
  | nil => simp
  | cons d ds ih =>
    have hd : d < 10 := h d (List.mem_cons_self ..)
    have hds : ∀ x ∈ ds, x < 10 := fun x hx => h x (List.mem_cons_of_mem _ hx)
    simp only [List.map_cons, List.foldl_cons, List.reverse_cons, List.length_cons]
    rw [ih _ hds, digitChar_toNat_sub hd, Nat.ofDigits_append, Nat.ofDigits_singleton,
      List.length_reverse]
    ring

/-- Conversion correctness: `toBN` recovers the exact integer from its big-endian decimal digit
string. -/
lemma toBN_decString (l : List Nat) (h : ∀ d ∈ l, d < 10) :
    toBN (decString l) = Nat.ofDigits 10 l.reverse := by
  simpa [toBN, decString] using toBN_decString_aux l 0 h

lemma run_cons_next {chain : ChainReader} {rest : List ChainReader}
    {p p2 : TxMonitorProps} (h : (txMonitorStep chain p).1 = .next p2) :
    txMonitorRun (chain :: rest) p = txMonitorRun rest p2 := by
  rw [txMonitorRun, h]

lemma run_cons_mined {chain : ChainReader} {rest : List ChainReader}
    {p : TxMonitorProps} {r : TransactionReceipt}
    (h : (txMonitorStep chain p).1 = .mined r) :
    txMonitorRun (chain :: rest) p = [r] := by
  rw [txMonitorRun, h]

lemma states_cons_next {chain : ChainReader} {rest : List ChainReader}
    {p p2 : TxMonitorProps} (h : (txMonitorStep chain p).1 = .next p2) :
    txMonitorStates (chain :: rest) p = p :: txMonitorStates rest p2 := by
  rw [txMonitorStates, h]

lemma states_cons_mined {chain : ChainReader} {rest : List ChainReader}
    {p : TxMonitorProps} {r : TransactionReceipt}
    (h : (txMonitorStep chain p).1 = .mined r) :
    txMonitorStates (chain :: rest) p = [p] := by
  rw [txMonitorStates, h]

/-- The state trace of a session always starts at the initial props. -/
lemma states_head? (chains : List ChainReader) (p : TxMonitorProps) :
    (txMonitorStates chains p).head? = some p := by
  cases chains with
  | nil => rfl
  | cons chain rest =>
    rw [txMonitorStates]
    split <;> rfl

/-- Once nonce and gasPrice are known, every state of the session carries the
same nonce. -/
lemma states_nonce_stable (chains : List ChainReader) :
    ∀ (p : TxMonitorProps) (n : Nat) (g : String), p.nonce = some n →
      p.gasPrice = some g → ∀ q ∈ txMonitorStates chains p, q.nonce = some n := by
  induction chains with
  | nil =>
    intro p n g hn _ q hq
    simp only [txMonitorStates, List.mem_singleton] at hq
    subst hq
    exact hn
  | cons chain rest ih =>
    intro p n g hn hg q hq
    cases hstep : (txMonitorStep chain p).1 with
    | next p2 =>
      rw [states_cons_next hstep] at hq
      rcases List.mem_cons.mp hq with rfl | hq2
      · exact hn
      · rcases step_polling_next_cases hn hg hstep with h | ⟨t, _, _, h⟩
        · subst h
          exact ih _ n g hn hg q hq2
        · subst h
          exact ih _ n t.gasPrice rfl rfl q hq2
    | mined r =>
      rw [states_cons_mined hstep] at hq
      simp only [List.mem_singleton] at hq
      subst hq
      exact hn

/-- Along the state trace of a session started in a polling state, the tracked
fee never decreases between consecutive states, and strictly increases
whenever the tracked hash changes. -/
lemma states_chain_fee (chains : List ChainReader) :
    ∀ (p : TxMonitorProps) (n : Nat) (g : String), p.nonce = some n →
      p.gasPrice = some g →
      (txMonitorStates chains p).Chain' (fun a b =>
        ∀ ga gb, a.gasPrice = some ga → b.gasPrice = some gb →
          toBN ga ≤ toBN gb ∧ (a.hash ≠ b.hash → toBN ga < toBN gb)) := by
  induction chains with
  | nil =>
    intro p n g _ _
    simp [txMonitorStates]
  | cons chain rest ih =>
    intro p n g hn hg
    cases hstep : (txMonitorStep chain p).1 with
    | mined r =>
      rw [states_cons_mined hstep]
      exact List.chain'_singleton p
    | next p2 =>
      rw [states_cons_next hstep]
      apply List.chain'_cons'.mpr
      rcases step_polling_next_cases hn hg hstep with h | ⟨t, hr, _, h⟩
      · subst h
        refine ⟨?_, ih _ n g hn hg⟩
        intro b hb
        rw [states_head?] at hb
        simp only [Option.mem_def, Option.some.injEq] at hb
        subst hb
        intro ga gb hga hgb
        rw [hga] at hgb
        injection hgb with e
        subst e
        exact ⟨Nat.le_refl _, fun hcontra => absurd rfl hcontra⟩
      · subst h
        refine ⟨?_, ih _ n t.gasPrice rfl rfl⟩
        intro b hb
        rw [states_head?] at hb
        simp only [Option.mem_def, Option.some.injEq] at hb
        subst hb
        intro ga gb hga hgb
        rw [hg] at hga
        injection hga with e
        subst e
        simp only [Option.some.injEq] at hgb
        subst hgb
        have hlt : toBN g < toBN t.gasPrice := (replacement_sound hr).2.2.2.2.2
        exact ⟨Nat.le_of_lt hlt, fun _ => hlt⟩

/-- The outcome of a round depends on the chain reader only through the
transaction lookup, the latest block, and the receipts of hashes other than
the tracked one. -/
lemma step_outcome_congr {c1 c2 : ChainReader} {p : TxMonitorProps}
    (hT : c1.getTransaction = c2.getTransaction)
    (hB : c1.latestBlockTransactions = c2.latestBlockTransactions)
    (hR : ∀ h, h ≠ p.hash → c1.getTransactionReceipt h = c2.getTransactionReceipt h) :
    (txMonitorStep c1 p).1 = (txMonitorStep c2 p).1 := by
  have hdisc : (p.nonce = none ∨ p.gasPrice = none) →
      (txMonitorStep c1 p).1 = (txMonitorStep c2 p).1 := by
    intro hd
    cases ht : c2.getTransaction p.hash with
    | none =>
      have ht1 : c1.getTransaction p.hash = none := by rw [hT]; exact ht
      rw [step_discovery_notfound hd ht, step_discovery_notfound hd ht1]
    | some tr =>
      have ht1 : c1.getTransaction p.hash = some tr := by rw [hT]; exact ht
      rw [step_discovery_found hd ht, step_discovery_found hd ht1]
  cases hn : p.nonce with
  | none => exact hdisc (Or.inl hn)
  | some n =>
    cases hg : p.gasPrice with
    | none => exact hdisc (Or.inr hg)
    | some g =>
      cases hr : replacementTransaction c2.latestBlockTransactions p.sender n p.hash
          p.data g with
      | none =>
        have hr1 : replacementTransaction c1.latestBlockTransactions p.sender n p.hash
            p.data g = none := by rw [hB]; exact hr
        rw [step_polling_no_candidate hn hg hr, step_polling_no_candidate hn hg hr1]
      | some t =>
        have hne : t.hash ≠ p.hash :=
          ne_of_sameString_false (replacement_sound hr).2.2.2.1
        have hr1 : replacementTransaction c1.latestBlockTransactions p.sender n p.hash
            p.data g = some t := by rw [hB]; exact hr
        cases hrc : c2.getTransactionReceipt t.hash with
        | none =>
          have hrc1 : c1.getTransactionReceipt t.hash = none := by
            rw [hR t.hash hne]; exact hrc
          rw [step_polling_adopt hn hg hr hrc, step_polling_adopt hn hg hr1 hrc1]
        | some r =>
          have hrc1 : c1.getTransactionReceipt t.hash = some r := by
            rw [hR t.hash hne]; exact hrc
          rw [step_polling_mined hn hg hr hrc, step_polling_mined hn hg hr1 hrc1]

/-! ### The claims -/

/-- Claim C1: for every sequence of chain states the monitor observes across
its polling rounds, the completion callback `cb` is invoked at most once —
`txMonitor` invokes it only in the branch where a replacement candidate's
receipt is non-null, and after that invocation it performs no further
rescheduling. -/
theorem txMonitor_callback_at_most_once (chains : List ChainReader)
    (p : TxMonitorProps) : (txMonitorRun chains p).length ≤ 1 := by
  induction chains generalizing p with
  | nil => simp [txMonitorRun]
  | cons chain rest ih =>
    cases hstep : (txMonitorStep chain p).1 with
    | next p2 =>
      rw [run_cons_next hstep]
      exact ih p2
    | mined r =>
      rw [run_cons_mined hstep]
      exact Nat.le_refl 1

/-- Claim C2: in a polling round, a transaction of the latest block is
selected as replacement candidate exactly by the five-conjunct predicate —
a selected candidate lies in the block and has the tracked sender (address
comparison), the tracked nonce, a different hash, the tracked calldata and a
strictly greater fee; conversely if some block transaction satisfies all five
conjuncts a candidate is selected; in particular a transaction with a
different sender, or with different calldata, is never selected. -/
theorem replacement_candidate_characterization (latest : List Tx)
    (sender : String) (nonce : Nat) (hash data gasPrice : String) :
    (∀ t, replacementTransaction latest sender nonce hash data gasPrice = some t →
      t ∈ latest ∧ sameAddress t.«from» sender = true ∧ t.nonce = nonce ∧
        sameString t.hash hash = false ∧ sameString t.input data = true ∧
        toBN gasPrice < toBN t.gasPrice)
    ∧ ((∃ t ∈ latest, sameAddress t.«from» sender = true ∧ t.nonce = nonce ∧
        sameString t.hash hash = false ∧ sameString t.input data = true ∧
        toBN gasPrice < toBN t.gasPrice) →
      (replacementTransaction latest sender nonce hash data gasPrice).isSome)
    ∧ (∀ t, sameAddress t.«from» sender = false →
      replacementTransaction latest sender nonce hash data gasPrice ≠ some t)
    ∧ (∀ t, sameString t.input data = false →
      replacementTransaction latest sender nonce hash data gasPrice ≠ some t) := by
  refine ⟨fun t ht => replacement_sound ht, ?_, ?_, ?_⟩
  · rintro ⟨t, hmem, h1, h2, h3, h4, h5⟩
    exact replacement_complete hmem h1 h2 h3 h4 h5
  · intro t hs hc
    rw [(replacement_sound hc).2.1] at hs
    cases hs
  · intro t hd hc
    rw [(replacement_sound hc).2.2.2.2.1] at hd
    cases hd

/-- Witness for C2 at concrete inputs: the speed-up candidate `demoTx2`
satisfies the five conjuncts and is selected; a same-nonce transaction from a
different sender, and a same-sender same-nonce transaction with different
calldata, are not selected. -/
theorem replacement_candidate_characterization_witness :
    (demoTx2 ∈ demoChainPending.latestBlockTransactions ∧
      sameAddress demoTx2.«from» "0xaaa" = true ∧ demoTx2.nonce = 5 ∧
      sameString demoTx2.hash "0xh1" = false ∧
      sameString demoTx2.input "0xdata" = true ∧
      toBN "10" < toBN demoTx2.gasPrice) ∧
    (replacementTransaction demoChainPending.latestBlockTransactions "0xaaa" 5
      "0xh1" "0xdata" "10").isSome ∧
    replacementTransaction demoChainPending.latestBlockTransactions "0xaaa" 5
      "0xh1" "0xdata" "10" ≠ some demoWrongSenderTx ∧
    replacementTransaction demoChainPending.latestBlockTransactions "0xaaa" 5
      "0xh1" "0xdata" "10" ≠ some demoWrongDataTx :=
  ⟨(replacement_candidate_characterization demoChainPending.latestBlockTransactions
      "0xaaa" 5 "0xh1" "0xdata" "10").1 demoTx2 (by decide),
   (replacement_candidate_characterization demoChainPending.latestBlockTransactions
      "0xaaa" 5 "0xh1" "0xdata" "10").2.1 (by decide),
   (replacement_candidate_characterization demoChainPending.latestBlockTransactions
      "0xaaa" 5 "0xh1" "0xdata" "10").2.2.1 demoWrongSenderTx (by decide),
   (replacement_candidate_characterization demoChainPending.latestBlockTransactions
      "0xaaa" 5 "0xh1" "0xdata" "10").2.2.2 demoWrongDataTx (by decide)⟩

/-- Claim C3: when a candidate is found and its receipt lookup returns null,
the monitor adopts the candidate (tracked hash, data and gasPrice become the
candidate's; sender and nonce unchanged) and reschedules; when the lookup
returns a receipt, the monitor invokes the callback with exactly that receipt
and stops. -/
theorem candidate_receipt_branches (chain : ChainReader) (p : TxMonitorProps)
    (n : Nat) (g : String) (t : Tx) (hn : p.nonce = some n)
    (hg : p.gasPrice = some g)
    (hc : replacementTransaction chain.latestBlockTransactions p.sender n p.hash p.data g
      = some t) :
    (chain.getTransactionReceipt t.hash = none →
      (txMonitorStep chain p).1 =
        .next ⟨p.sender, t.hash, t.input, some n, some t.gasPrice⟩)
    ∧ ∀ r, chain.getTransactionReceipt t.hash = some r →
      (txMonitorStep chain p).1 = .mined r := by
  constructor
  · intro hrc
    rw [step_polling_adopt hn hg hc hrc]
  · intro r hrc
    rw [step_polling_mined hn hg hc hrc]

/-- Witness for C3 at concrete inputs: with candidate `demoTx2` pending the
monitor adopts it; with its receipt available the monitor fires the callback
with that receipt. -/
theorem candidate_receipt_branches_witness :
    (txMonitorStep demoChainPending demoProps).1 =
      .next ⟨"0xaaa", "0xh2", "0xdata", some 5, some "20"⟩ ∧
    (txMonitorStep demoChainMined demoProps).1 = .mined demoReceipt2 :=
  ⟨(candidate_receipt_branches demoChainPending demoProps 5 "10" demoTx2 rfl rfl
      (by decide)).1 rfl,
   (candidate_receipt_branches demoChainMined demoProps 5 "10" demoTx2 rfl rfl
      (by decide)).2 demoReceipt2 (by decide)⟩

/-- Claim C4: a candidate whose fee does not strictly exceed the tracked fee
is never adopted, and across all rounds of a session started in a polling
state the tracked fee is monotonically non-decreasing — strictly increasing
at every adoption (tracked-hash change). -/
theorem tracked_fee_monotone (p : TxMonitorProps) (n : Nat) (g : String)
    (hn : p.nonce = some n) (hg : p.gasPrice = some g) :
    (∀ (latest : List Tx) t, toBN t.gasPrice ≤ toBN g →
      replacementTransaction latest p.sender n p.hash p.data g ≠ some t)
    ∧ ∀ chains : List ChainReader,
        (txMonitorStates chains p).Chain' (fun a b =>
          ∀ ga gb, a.gasPrice = some ga → b.gasPrice = some gb →
            toBN ga ≤ toBN gb ∧ (a.hash ≠ b.hash → toBN ga < toBN gb)) := by
  constructor
  · intro latest t hle hr
    exact absurd (replacement_sound hr).2.2.2.2.2 (Nat.not_lt.mpr hle)
  · intro chains
    exact states_chain_fee chains p n g hn hg

/-- Witness for C4 at concrete inputs: the equal-fee transaction `demoLowTx`
is never selected, and the fee relation holds along the one-round session that
adopts `demoTx2`. -/
theorem tracked_fee_monotone_witness :
    replacementTransaction demoChainPending.latestBlockTransactions
      demoProps.sender 5 demoProps.hash demoProps.data "10" ≠ some demoLowTx ∧
    (txMonitorStates [demoChainPending] demoProps).Chain' (fun a b =>
      ∀ ga gb, a.gasPrice = some ga → b.gasPrice = some gb →
        toBN ga ≤ toBN gb ∧ (a.hash ≠ b.hash → toBN ga < toBN gb)) :=
  ⟨(tracked_fee_monotone demoProps 5 "10" rfl rfl).1
      demoChainPending.latestBlockTransactions demoLowTx (by decide),
   (tracked_fee_monotone demoProps 5 "10" rfl rfl).2 [demoChainPending]⟩

/-- Claim C5 (refuted — code bug): the spec's termination-correctness property
says that if the Chain Reader makes the receipt for the currently tracked hash
available starting at round K, with no replacement candidate ever appearing,
the callback fires with that receipt at round K.  In the code the per-round
receipt lookup on the tracked hash is only logged, and the block-scan
predicate requires a hash different from the tracked one, so in this scenario
(here K = 1: the receipt is available from round 1 on, and the latest block
holds only the tracked transaction itself) the callback never fires, in any
number of rounds — contradicting the function's own documentation ("cb -
called with the tx receipt as argument when tx is mined"). -/
theorem receipt_ready_callback_never_fires :
    ∀ nRounds : Nat,
      c5Chain.getTransactionReceipt c5Props.hash = some c5Receipt ∧
      txMonitorRun (List.replicate nRounds c5Chain) c5Props = [] := by
  have hstep : (txMonitorStep c5Chain c5Props).1 = .next c5Props := by decide
  intro nRounds
  refine ⟨rfl, ?_⟩
  induction nRounds with
  | zero => rfl
  | succ k ih =>
    rw [List.replicate_succ, run_cons_next hstep]
    exact ih

/-- Claim C6: the per-round receipt lookup on the currently tracked hash never
causes termination or any state change — overriding what that lookup returns
(with any value, in particular `none`, "had the lookup returned nothing")
leaves the round's outcome identical; and the callback can only fire through
the replacement-candidate block-scan path. -/
theorem side_receipt_check_inert (chain : ChainReader) (p : TxMonitorProps)
    (rv : Option TransactionReceipt) :
    (txMonitorStep
        ⟨chain.getTransaction,
         fun h => if h = p.hash then rv else chain.getTransactionReceipt h,
         chain.latestBlockTransactions⟩ p).1
      = (txMonitorStep chain p).1
    ∧ ∀ r, (txMonitorStep chain p).1 = .mined r →
        ∃ n g t, p.nonce = some n ∧ p.gasPrice = some g ∧
          replacementTransaction chain.latestBlockTransactions p.sender n p.hash p.data g
            = some t ∧
          t.hash ≠ p.hash ∧ chain.getTransactionReceipt t.hash = some r := by
  constructor
  · exact step_outcome_congr rfl rfl (fun h hne => if_neg hne)
  · intro r h
    obtain ⟨n, g, t, hn, hg, hr, hrc⟩ := step_mined_cases h
    exact ⟨n, g, t, hn, hg, hr,
      ne_of_sameString_false (replacement_sound hr).2.2.2.1, hrc⟩

/-- Witness for C6 at a concrete input: in the round where `demoChainMined`
makes the monitor fire the callback, the firing indeed comes from the
candidate path. -/
theorem side_receipt_check_inert_witness :
    ∃ n g t, demoProps.nonce = some n ∧ demoProps.gasPrice = some g ∧
      replacementTransaction demoChainMined.latestBlockTransactions demoProps.sender n
        demoProps.hash demoProps.data g = some t ∧
      t.hash ≠ demoProps.hash ∧
      demoChainMined.getTransactionReceipt t.hash = some demoReceipt2 :=
  (side_receipt_check_inert demoChainMined demoProps none).2 demoReceipt2 (by decide)

/-- Claim C7: nonce discovery is stable — while nonce or gasPrice is unknown
the monitor retries with both unset when the hash lookup returns null; once
the lookup succeeds with nonce N and fee F they become exactly (N, F); from
then on the nonce never changes for the rest of the session, and the fee
changes only when a strictly higher-fee candidate is adopted. -/
theorem nonce_discovery_stable (chain : ChainReader) (p : TxMonitorProps) :
    ((p.nonce = none ∨ p.gasPrice = none) → chain.getTransaction p.hash = none →
      (txMonitorStep chain p).1 = .next ⟨p.sender, p.hash, p.data, none, none⟩)
    ∧ ((p.nonce = none ∨ p.gasPrice = none) → ∀ tr,
        chain.getTransaction p.hash = some tr →
        (txMonitorStep chain p).1 =
          .next ⟨p.sender, p.hash, p.data, some tr.nonce, some tr.gasPrice⟩)
    ∧ (∀ n g, p.nonce = some n → p.gasPrice = some g →
        ∀ (chains : List ChainReader), ∀ q ∈ txMonitorStates chains p,
          q.nonce = some n)
    ∧ (∀ n g p2, p.nonce = some n → p.gasPrice = some g →
        (txMonitorStep chain p).1 = .next p2 → p2.gasPrice ≠ p.gasPrice →
        ∃ t, replacementTransaction chain.latestBlockTransactions p.sender n p.hash
            p.data g = some t ∧
          p2.gasPrice = some t.gasPrice ∧ toBN g < toBN t.gasPrice) := by
  refine ⟨?_, ?_, ?_, ?_⟩
  · intro hd ht
    rw [step_discovery_notfound hd ht]
  · intro hd tr ht
    rw [step_discovery_found hd ht]
  · intro n g hn hg chains q hq
    exact states_nonce_stable chains p n g hn hg q hq
  · intro n g p2 hn hg hstep hne
    rcases step_polling_next_cases hn hg hstep with h | ⟨t, hr, _, h⟩
    · exact absurd (h ▸ rfl) hne
    · subst h
      exact ⟨t, hr, rfl, (replacement_sound hr).2.2.2.2.2⟩

/-- Witness for C7 at concrete inputs: a failed lookup retries with both
fields unset; a successful lookup installs nonce 5 and fee 10; the nonce is
still 5 in the adopted state of a one-round session; the fee change of that
round comes from the strictly higher-fee candidate `demoTx2`. -/
theorem nonce_discovery_stable_witness :
    (txMonitorStep demoChainQuiet demoDiscProps).1 =
      .next ⟨"0xaaa", "0xh1", "0xdata", none, none⟩ ∧
    (txMonitorStep demoChainFound demoDiscProps).1 =
      .next ⟨"0xaaa", "0xh1", "0xdata", some 5, some "10"⟩ ∧
    demoAdopted.nonce = some 5 ∧
    (∃ t, replacementTransaction demoChainPending.latestBlockTransactions
        demoProps.sender 5 demoProps.hash demoProps.data "10" = some t ∧
      demoAdopted.gasPrice = some t.gasPrice ∧ toBN "10" < toBN t.gasPrice) :=
  ⟨(nonce_discovery_stable demoChainQuiet demoDiscProps).1 (Or.inl rfl) rfl,
   (nonce_discovery_stable demoChainFound demoDiscProps).2.1 (Or.inl rfl)
     demoOrigTx (by decide),
   (nonce_discovery_stable demoChainPending demoProps).2.2.1 5 "10" rfl rfl
     [demoChainPending] demoAdopted (by decide),
   (nonce_discovery_stable demoChainPending demoProps).2.2.2 5 "10" demoAdopted
     rfl rfl (by decide) (by decide)⟩

/-- Claim C8: no failure propagates and there is no failure callback — a null
transaction lookup in discovery reschedules with sender/hash/data unchanged, a
null receipt for a found candidate still reschedules, a round without a
candidate reschedules with props unchanged, and the only way anything reaches
the caller is the single success callback carrying an actually looked-up
receipt. -/
theorem notfound_recoverable (chain : ChainReader) (p : TxMonitorProps) :
    ((p.nonce = none ∨ p.gasPrice = none) → chain.getTransaction p.hash = none →
      (txMonitorStep chain p).1 = .next ⟨p.sender, p.hash, p.data, none, none⟩)
    ∧ (∀ n g t, p.nonce = some n → p.gasPrice = some g →
        replacementTransaction chain.latestBlockTransactions p.sender n p.hash p.data g
          = some t →
        chain.getTransactionReceipt t.hash = none →
        (txMonitorStep chain p).1 =
          .next ⟨p.sender, t.hash, t.input, some n, some t.gasPrice⟩)
    ∧ (∀ n g, p.nonce = some n → p.gasPrice = some g →
        replacementTransaction chain.latestBlockTransactions p.sender n p.hash p.data g
          = none →
        (txMonitorStep chain p).1 = .next p)
    ∧ (∀ r, (txMonitorStep chain p).1 = .mined r →
        ∃ n g t, p.nonce = some n ∧ p.gasPrice = some g ∧
          replacementTransaction chain.latestBlockTransactions p.sender n p.hash p.data g
            = some t ∧
          chain.getTransactionReceipt t.hash = some r) := by
  refine ⟨?_, ?_, ?_, fun r h => step_mined_cases h⟩
  · intro hd ht
    rw [step_discovery_notfound hd ht]
  · intro n g t hn hg hr hrc
    rw [step_polling_adopt hn hg hr hrc]
  · intro n g hn hg hr
    rw [step_polling_no_candidate hn hg hr]

/-- Witness for C8 at concrete inputs: each of the four branches exercised on
the demo fixtures. -/
theorem notfound_recoverable_witness :
    (txMonitorStep demoChainQuiet demoDiscProps).1 =
      .next ⟨"0xaaa", "0xh1", "0xdata", none, none⟩ ∧
    (txMonitorStep demoChainPending demoProps).1 =
      .next ⟨"0xaaa", "0xh2", "0xdata", some 5, some "20"⟩ ∧
    (txMonitorStep demoChainQuiet demoProps).1 = .next demoProps ∧
    (∃ n g t, demoProps.nonce = some n ∧ demoProps.gasPrice = some g ∧
      replacementTransaction demoChainMined.latestBlockTransactions demoProps.sender n
        demoProps.hash demoProps.data g = some t ∧
      demoChainMined.getTransactionReceipt t.hash = some demoReceipt2) :=
  ⟨(notfound_recoverable demoChainQuiet demoDiscProps).1 (Or.inl rfl) rfl,
   (notfound_recoverable demoChainPending demoProps).2.1 5 "10" demoTx2 rfl rfl
     (by decide) rfl,
   (notfound_recoverable demoChainQuiet demoProps).2.2.1 5 "10" rfl rfl rfl,
   (notfound_recoverable demoChainMined demoProps).2.2.2 demoReceipt2 (by decide)⟩

/-- Claim C9: the fee comparison is exact arbitrary-precision integer
comparison of the decimal fee strings — for any two fee values given by their
decimal digit strings, `toBN` of one strictly exceeds `toBN` of the other
exactly when the represented integers compare so. -/
theorem fee_comparison_bigint_exact (l1 l2 : List Nat)
    (h1 : ∀ d ∈ l1, d < 10) (h2 : ∀ d ∈ l2, d < 10) :
    toBN (decString l1) > toBN (decString l2)
      ↔ Nat.ofDigits 10 l1.reverse > Nat.ofDigits 10 l2.reverse := by
  rw [toBN_decString l1 h1, toBN_decString l2 h2]

/-- Witness for C9 at concrete inputs: the fee string "20" exceeds the fee
string "9" as big integers (a lexicographic string comparison would get this
wrong). -/
theorem fee_comparison_bigint_exact_witness :
    toBN (decString [2, 0]) > toBN (decString [9])
      ↔ Nat.ofDigits 10 [2, 0].reverse > Nat.ofDigits 10 [9].reverse :=
  fee_comparison_bigint_exact [2, 0] [9] (by decide) (by decide)

/-- Claim C10: whenever the caller supplies only one of nonce/gasPrice, the
discovery branch runs — it performs no receipt check, no block scan and no
candidate search (its round trace is empty and its outcome depends only on the
transaction lookup), and on a successful hash lookup both nonce and gasPrice
are overwritten with the looked-up transaction's values, discarding the
caller-supplied one. -/
theorem partial_props_discovery (chain : ChainReader) (p : TxMonitorProps)
    (hd : p.nonce = none ∨ p.gasPrice = none) :
    (txMonitorStep chain p).2 = ⟨none, none, none⟩
    ∧ (∀ tr, chain.getTransaction p.hash = some tr →
        (txMonitorStep chain p).1 =
          .next ⟨p.sender, p.hash, p.data, some tr.nonce, some tr.gasPrice⟩)
    ∧ ∀ chain2 : ChainReader, chain2.getTransaction = chain.getTransaction →
        (txMonitorStep chain2 p).1 = (txMonitorStep chain p).1 := by
  refine ⟨?_, ?_, ?_⟩
  · cases ht : chain.getTransaction p.hash with
    | none => rw [step_discovery_notfound hd ht]
    | some tr => rw [step_discovery_found hd ht]
  · intro tr ht
    rw [step_discovery_found hd ht]
  · intro chain2 hEq
    cases ht : chain.getTransaction p.hash with
    | none =>
      have ht2 : chain2.getTransaction p.hash = none := by rw [hEq]; exact ht
      rw [step_discovery_notfound hd ht, step_discovery_notfound hd ht2]
    | some tr =>
      have ht2 : chain2.getTransaction p.hash = some tr := by rw [hEq]; exact ht
      rw [step_discovery_found hd ht, step_discovery_found hd ht2]

/-- Witness for C10 at concrete inputs: with a caller-supplied nonce 99 but no
gasPrice, the discovery round has an empty trace, overwrites the nonce with
the looked-up value 5, and its outcome ignores the receipt table and latest
block. -/
theorem partial_props_discovery_witness :
    (txMonitorStep demoChainFound demoHalfProps).2 = ⟨none, none, none⟩ ∧
    (txMonitorStep demoChainFound demoHalfProps).1 =
      .next ⟨"0xaaa", "0xh1", "0xdata", some 5, some "10"⟩ ∧
    (txMonitorStep demoChainAlt demoHalfProps).1 =
      (txMonitorStep demoChainFound demoHalfProps).1 :=
  ⟨(partial_props_discovery demoChainFound demoHalfProps (Or.inr rfl)).1,
   (partial_props_discovery demoChainFound demoHalfProps (Or.inr rfl)).2.1
     demoOrigTx (by decide),
   (partial_props_discovery demoChainFound demoHalfProps (Or.inr rfl)).2.2
     demoChainAlt rfl⟩

end SafeReact
